import Mathlib

/-!
# Verification of `scripts/ft-ergodox.py`

A shallow embedding of the keycap batch-generation script
`scripts/ft-ergodox.py` from the `keycap_playground` repository, together
with theorems settling the specification claims about it.

The script's behaviour is modelled as follows:

* `run_command` — the synchronous shell runner (lines 58–76).  A shell
  command's behaviour is abstracted as a function `exec : String → Nat × String`
  giving its exit status and combined stdout/stderr output;
  `subprocess.check_output` raising `CalledProcessError` on a non-zero
  status is modelled with `Except`.
* `TopStmt` / `runNames` — Python's runtime global-name resolution, enough
  to settle whether executing the script raises a `NameError` on `SEM`.
* `Phase` / `BatchStep` / `Reachable` — the semaphore-bounded concurrent
  execution of render commands by `run_command_on_loop` (lines 80–91):
  each command acquires the semaphore `SEM`, runs, and releases only after
  its output is collected.
* `Keycap` — the per-key configuration record.  Fields are the attributes
  the script itself assigns; numeric attributes are modelled exactly with
  `ℚ` (the script only stores literals and computes `19.05*1.5-0.8`-style
  products, all exact).  The external `keycap` library's `Keycap.__init__`
  and `postinit` (out of scope per the spec) are abstracted as the initial
  record `s` and an arbitrary override function `p : Keycap → Keycap`.
* `renderStep` / `legendStep` / `namedRun` / `mainRun` — the `__main__`
  block (lines 623–755): argument handling, the full-batch render loop,
  the `--legends` loop, and the named-keycap branch.  `str(keycap)` (the
  external library's command construction) is opaque, so a "command
  appended to COMMANDS" is modelled as the snapshot of the keycap record
  at the moment of the append; every property claimed about commands
  (which keycaps produce one, and the `name`/`render`/`file_type` they
  carry) is visible on that snapshot.
-/

namespace FtErgodox

/-! ## The synchronous command runner (lines 58–76)

A shell command's observable behaviour is a pair `(status, output)`:
its exit status and its combined stdout/stderr text (the script passes
`stderr=subprocess.STDOUT`, so the two streams are merged). -/

/-- Model of `subprocess.check_output(cmd, stderr=STDOUT, shell=True, ...)`:
returns the combined output on exit status 0 and raises
`CalledProcessError` (carrying the captured output in `e.output`)
otherwise.  `Except.error` models the raised exception. -/
def check_output (exec : String → Nat × String) (cmd : String) :
    Except String String :=
  let r := exec cmd
  if r.1 = 0 then Except.ok r.2 else Except.error r.2

/-- Model of `run_command` (lines 58–76): run the command via `check_output`; a
`CalledProcessError` is caught and the exception's captured output is
returned in its place.  The result is a plain `String`: no exception
escapes. -/
def run_command (exec : String → Nat × String) (cmd : String) : String :=
  match check_output exec cmd with
  | Except.ok output => output
  | Except.error e_output => e_output

/-! ## Global-name resolution for the module (whole file)

Python resolves a global name when the referencing code *runs*, not when
its `def` is compiled.  A module run is a sequence of top-level actions:
statements that bind a global name, and executions that read a list of
global names in order.  Reading an unbound name raises `NameError`. -/

/-- One top-level action of a Python module run: `bind n` for an
assignment / `def` / `class` / import binding the global `n`, and
`exec reads` for running code that looks up the globals `reads` in
order. -/
inductive TopStmt where
  | bind (n : String)
  | exec (reads : List String)
deriving DecidableEq

/-- Run a list of top-level actions over an environment of bound global
names; the first lookup of an unbound name raises `NameError` on that
name (`Except.error`). -/
def runNames : List TopStmt → List String → Except String Unit
  | [], _ => Except.ok ()
  | TopStmt.bind n :: rest, env => runNames rest (n :: env)
  | TopStmt.exec reads :: rest, env =>
    match reads.find? (fun r => !env.contains r) with
    | some missing => Except.error missing
    | none => runNames rest env

/-- The names `run_command_on_loop`, driven via `run_all_commands`, reads
from the module globals when the event loop runs it: the command-runner
functions themselves and the concurrency limiter `SEM` (line 87), in
lookup order. -/
def runnerReads : List String :=
  ["run_all_commands", "run_command_on_loop", "SEM", "run_command"]

/-- Top-level statements of the module body (lines 24–621), in source
order.  Lines 55–56 (`MAX_RUNNERS` / the module-level `SEM`) are
commented out in the source, so they bind nothing here. -/
def moduleTopLevel : List TopStmt :=
  [TopStmt.bind "os", TopStmt.bind "sys", TopStmt.bind "Path",
   TopStmt.bind "json", TopStmt.bind "argparse", TopStmt.bind "deepcopy",
   TopStmt.bind "getstatusoutput", TopStmt.bind "asyncio",
   TopStmt.bind "subprocess", TopStmt.bind "partial",
   TopStmt.bind "ensure_future", TopStmt.bind "Keycap",
   TopStmt.bind "OPENSCAD_PATH", TopStmt.bind "COLORSCAD_PATH",
   TopStmt.bind "KEY_UNIT", TopStmt.bind "BETWEENSPACE",
   TopStmt.bind "FILE_TYPE", TopStmt.bind "COMMANDS",
   TopStmt.bind "run_command", TopStmt.bind "run_command_on_loop",
   TopStmt.bind "run_all_commands", TopStmt.bind "process_result",
   TopStmt.bind "ergodox_ft_base", TopStmt.bind "KEYCAPS",
   TopStmt.bind "print_keycaps"]

/-- The `if __name__ == "__main__":` block (lines 623–755): binds
`parser`, `args`, `SEM` (line 651) and `loop` (line 754), then line 755's
`loop.run_until_complete(run_all_commands())` drives
`run_command_on_loop`, performing `runnerReads`. -/
def mainBlock : List TopStmt :=
  [TopStmt.bind "parser", TopStmt.bind "args", TopStmt.bind "SEM",
   TopStmt.bind "loop", TopStmt.exec runnerReads]

/-- Running the file as a script executes the module body followed by the
`__main__` block. -/
def scriptRun : List TopStmt := moduleTopLevel ++ mainBlock

/-- Importing the module executes only the module body; this run then
invokes the command runner without the `__main__` block ever running. -/
def importThenRun : List TopStmt :=
  moduleTopLevel ++ [TopStmt.exec runnerReads]

/-- The global names a list of top-level actions binds. -/
def bindsOf (stmts : List TopStmt) : List String :=
  stmts.filterMap (fun s =>
    match s with
    | TopStmt.bind n => some n
    | TopStmt.exec _ => none)

/-! ## The bounded-concurrency batch runner (lines 79–112, 629–631, 651)

`run_command_on_loop` wraps each external render command in
`async with SEM`: it acquires the semaphore (blocking while its counter
is zero, then decrementing it), runs the command in an executor thread,
and the `async with` block releases the semaphore (incrementing the
counter) only after the command's output has been collected.  `SEM` is
`asyncio.Semaphore(args.jobs)` (line 651) and `--jobs` defaults to 8
(lines 629–631).

The model is a transition system: one `Phase` per queued command
(`waiting` → `running` → `done`), together with the semaphore counter.
`acquire` needs a positive counter; `release` happens on a running
command once its output is collected. -/

/-- Lifecycle of one queued render command inside `run_command_on_loop`:
`waiting` before the semaphore is acquired, `running` while the external
command executes (semaphore held), `done` after its output is collected
and the semaphore released. -/
inductive Phase where
  | waiting
  | running
  | done
deriving DecidableEq

/-- Whether a command is currently executing. -/
def isRunning : Phase → Bool
  | Phase.running => true
  | _ => false

/-- The number of commands currently executing. -/
def countRunning (l : List Phase) : Nat := (l.filter isRunning).length

/-- State of the batch runner: the semaphore's counter and each queued
command's phase. -/
structure BatchState where
  sem : Nat
  phases : List Phase
deriving DecidableEq

/-- One scheduler step of the batch runner:
`acquire` is `async with SEM` entering for command `i` (only possible
while the counter is positive; the counter drops and the command starts
executing); `release` is the block exiting for command `i` after its
output is collected (the counter rises and the command is done). -/
inductive BatchStep : BatchState → BatchState → Prop where
  | acquire (s : BatchState) (i : Nat)
      (hw : s.phases.get? i = some Phase.waiting) (hs : 0 < s.sem) :
      BatchStep s ⟨s.sem - 1, s.phases.set i Phase.running⟩
  | release (s : BatchState) (i : Nat)
      (hr : s.phases.get? i = some Phase.running) :
      BatchStep s ⟨s.sem + 1, s.phases.set i Phase.done⟩

/-- States reachable from `init` by scheduler steps. -/
inductive Reachable (init : BatchState) : BatchState → Prop where
  | refl : Reachable init init
  | step {s t : BatchState} : Reachable init s → BatchStep s t →
      Reachable init t

/-- The batch runner's start state: `SEM = asyncio.Semaphore(args.jobs)`
(line 651) with counter `jobs`, and `n` commands queued by
`run_all_commands`, none yet started. -/
def initState (jobs n : Nat) : BatchState :=
  ⟨jobs, List.replicate n Phase.waiting⟩

/-- The `argparse` default of `--jobs` (lines 629–631). -/
def defaultJobs : Nat := 8

/-! ## The keycap configuration records (lines 43–612)

A `Keycap` holds the attributes the script assigns on its configuration
objects.  All numeric attributes in the script are exact decimal
literals or exact products of them, so they are modelled with `ℚ`.
The external `keycap` library's `Keycap.__init__` (which receives the
`name`/`legends`/`font_sizes` keyword arguments and sets library
defaults) and its `postinit` method (which re-applies the keyword
overrides) are out of scope per the spec; they are abstracted as an
arbitrary starting record `s` and an arbitrary override function
`p : Keycap → Keycap` applied where the source calls
`self.postinit(**kwargs)`. -/

/-- Per-key configuration record: the attributes assigned by the script
(class bodies at lines 116–504 and the `__main__` loops). -/
structure Keycap where
  name : String
  legends : List String
  output_path : String
  file_type : String
  render : List String
  key_profile : String
  key_rotation : List ℚ
  key_length : ℚ
  key_width : ℚ
  wall_thickness : ℚ
  uniform_wall_thickness : Bool
  dish_thickness : ℚ
  dish_corner_fn : Nat
  dish_invert : Bool
  polygon_layers : Nat
  stem_height : ℚ
  stem_type : String
  stem_inset : ℚ
  stem_walls_inset : ℚ
  stem_inside_tolerance : ℚ
  stem_side_supports : List ℚ
  stem_locations : List (List ℚ)
  stem_color : String
  use_colorscad : Bool
  scale : List (List ℚ)
  fonts : List String
  font_sizes : List ℚ
  trans : List (List ℚ)
  trans2 : List (List ℚ)
  rotation : List (List ℚ)
  rotation2 : List (List ℚ)
  homing_dot_length : ℚ
  homing_dot_width : ℚ
  homing_dot_x : ℚ
  homing_dot_y : ℚ
  homing_dot_z : ℚ
deriving DecidableEq

/-- The constant `KEY_UNIT` (line 47). -/
def KEY_UNIT : ℚ := 19.05

/-- The constant `BETWEENSPACE` (line 48). -/
def BETWEENSPACE : ℚ := 0.8

/-- The constant `FILE_TYPE` (line 49). -/
def FILE_TYPE : String := "3mf"

/-- Constructor `ergodox_ft_base.__init__` (lines 116–169): starting from the state
`s` left by the external `Keycap.__init__`, assign the base profile's
attributes, add the homing-dot attributes when `homing_dot=True`, and
finish with `self.postinit(**kwargs)`, abstracted as `p`. -/
def ergodox_ft_base_init (p : Keycap → Keycap) (homing_dot : Bool)
    (s : Keycap) : Keycap :=
  let s1 := { s with
    render := ["keycap", "stem"],
    file_type := FILE_TYPE,
    key_profile := "riskeycap",
    key_rotation := [110.1, 0, 0],
    wall_thickness := 0.45 * 2.7,
    uniform_wall_thickness := true,
    dish_thickness := 1,
    dish_corner_fn := 40,
    polygon_layers := 4,
    stem_height := 4,
    stem_type := "round_cherry",
    stem_inset := -0.5,
    stem_walls_inset := 0,
    stem_inside_tolerance := 0.15,
    stem_side_supports := [0, 0, 1, 0],
    stem_locations := [[0, 0, 0]],
    scale := [[1, 1, 3], [1, 1, 3]],
    fonts := ["Gotham Rounded:style=Bold", "Gotham Rounded:style=Bold"],
    font_sizes := [4.5, 3.5],
    trans := [[0, -2.6, 0], [0, -2, 2]],
    rotation := [[-20, 0, 0], [68, 0, 0]] }
  let s2 :=
    if homing_dot then
      { s1 with
        homing_dot_length := 1.5,
        homing_dot_width := 1.5,
        homing_dot_x := 0,
        homing_dot_y := -3,
        homing_dot_z := -0.45 }
    else s1
  p s2

/-- Constructor `ergodox_ft_wpm.__init__` (lines 171–177): the parent's
configuration, then `self.font_sizes[1] = 2`. -/
def ergodox_ft_wpm_init (p : Keycap → Keycap) (homing_dot : Bool)
    (s : Keycap) : Keycap :=
  let b := ergodox_ft_base_init p homing_dot s
  { b with font_sizes := b.font_sizes.set 1 2 }

/-- Constructor `ergodox_ft_gem.__init__` (lines 240–247): the parent's
configuration, then `self.key_profile = "gem"` and
`self.key_rotation = [108.6,0,0]`. -/
def ergodox_ft_gem_init (p : Keycap → Keycap) (homing_dot : Bool)
    (s : Keycap) : Keycap :=
  let b := ergodox_ft_base_init p homing_dot s
  { b with key_profile := "gem", key_rotation := [108.6, 0, 0] }

/-- A concrete starting record standing in for the state after the
external `Keycap.__init__`, for evaluating the model at concrete
inputs. -/
def blankKeycap : Keycap where
  name := ""
  legends := [""]
  output_path := "."
  file_type := "3mf"
  render := []
  key_profile := ""
  key_rotation := []
  key_length := 0
  key_width := 0
  wall_thickness := 0
  uniform_wall_thickness := false
  dish_thickness := 0
  dish_corner_fn := 0
  dish_invert := false
  polygon_layers := 0
  stem_height := 0
  stem_type := ""
  stem_inset := 0
  stem_walls_inset := 0
  stem_inside_tolerance := 0
  stem_side_supports := []
  stem_locations := []
  stem_color := ""
  use_colorscad := true
  scale := []
  fonts := []
  font_sizes := []
  trans := []
  trans2 := []
  rotation := []
  rotation2 := []
  homing_dot_length := 0
  homing_dot_width := 0
  homing_dot_x := 0
  homing_dot_y := 0
  homing_dot_z := 0

/-! ## The `__main__` block (lines 623–755)

`argparse` produces `args`; `sys.argv` having length 1 means the script
was invoked with no command-line arguments.  The filesystem is an
oracle `fs : String → Bool` (`os.path.exists`); it does not change while
commands are generated, since the commands only run afterwards.
`str(keycap)` — the external library's command construction — is
opaque, so an append of `str(keycap)` to `COMMANDS` is recorded as the
snapshot of the keycap record at the moment of the append. -/

/-- The parsed command-line arguments (lines 624–650). -/
structure Args where
  out : String
  jobs : Nat
  force : Bool
  skip_colorscad : Bool
  transparent : Bool
  legends : Bool
  keycaps : Bool
  names : List String
deriving DecidableEq

/-- The output file path `f"{out}/{name}.{file_type}"` used by every
existence check and rendering message. -/
def keycapPath (out nm ftype : String) : String :=
  out ++ "/" ++ nm ++ "." ++ ftype

/-- The `--skip-colorscad` and `--transparent` attribute writes applied
to a keycap that is about to be rendered (lines 681–684, 719–722,
745–748). -/
def applyFlags (args : Args) (k : Keycap) : Keycap :=
  let k1 := if args.skip_colorscad then { k with use_colorscad := false }
    else k
  if args.transparent then { k1 with stem_color := "#505050" } else k1

/-- One iteration of the full-batch render loop (lines 711–727) on one
keycap: set `output_path`; without `--force`, skip (append nothing) when
the output file exists; otherwise apply the flag writes and append the
keycap's command.  Returns the keycap's new state and the appended
command, if any. -/
def renderStep (args : Args) (fs : String → Bool) (k : Keycap) :
    Keycap × Option Keycap :=
  let k1 := { k with output_path := args.out }
  if !args.force && fs (keycapPath args.out k1.name k1.file_type) then
    (k1, none)
  else
    let k2 := applyFlags args k1
    (k2, some k2)

/-- The render commands appended by the full-batch render loop. -/
def renderCmds (args : Args) (fs : String → Bool) (ks : List Keycap) :
    List Keycap :=
  (ks.map (renderStep args fs)).filterMap Prod.snd

/-- The keycap states after the full-batch render loop. -/
def renderPhase (args : Args) (fs : String → Bool) (ks : List Keycap) :
    List Keycap :=
  (ks.map (renderStep args fs)).map Prod.fst

/-- The attribute writes of the full-batch render loop on a keycap that
is not skipped: `output_path` plus the flag writes. -/
def mutateRender (args : Args) (k : Keycap) : Keycap :=
  applyFlags args { k with output_path := args.out }

/-- One iteration of the `--legends` loop (lines 729–753) on one keycap:
keycaps whose `legends` equal `[""]` are passed over untouched; the rest
are renamed in place (`name` suffixed `_legends`, `render` set to
`["legends"]`, `file_type` set to `"stl"`, `output_path` set), then
skipped without `--force` when the legend output file exists, and
otherwise flag-written and appended. -/
def legendStep (args : Args) (fs : String → Bool) (k : Keycap) :
    Keycap × Option Keycap :=
  if k.legends = [""] then (k, none)
  else
    let k1 := { k with
      name := k.name ++ "_legends",
      output_path := args.out,
      render := ["legends"],
      file_type := "stl" }
    if !args.force && fs (keycapPath args.out k1.name k1.file_type) then
      (k1, none)
    else
      let k2 := applyFlags args k1
      (k2, some k2)

/-- The attribute writes of the `--legends` loop on a keycap that is
renamed for legend rendering (lines 733–738 plus the flag writes). -/
def mutateLegend (args : Args) (k : Keycap) : Keycap :=
  applyFlags args { k with
    name := k.name ++ "_legends",
    output_path := args.out,
    render := ["legends"],
    file_type := "stl" }

/-- The legend commands appended by the `--legends` loop over the
keycap states left by the render loop. -/
def legendCmds (args : Args) (fs : String → Bool) (ks1 : List Keycap) :
    List Keycap :=
  (ks1.map (legendStep args fs)).filterMap Prod.snd

/-- The full-batch branch (lines 710–753): the render loop over
`KEYCAPS`, then, when `--legends` is given, the legend loop over the
same (now mutated) keycap objects.  Returns the final keycap states and
the contents of `COMMANDS`. -/
def fullBatch (args : Args) (fs : String → Bool) (ks : List Keycap) :
    List Keycap × List Keycap :=
  let ks1 := renderPhase args fs ks
  if args.legends then
    ((ks1.map (legendStep args fs)).map Prod.fst,
      renderCmds args fs ks ++ legendCmds args fs ks1)
  else (ks1, renderCmds args fs ks)

/-- Python's `str.lower()` on one character, for the ASCII range the
catalog names and requested names use. -/
def lowerChar (c : Char) : Char :=
  if 'A' ≤ c ∧ c ≤ 'Z' then Char.ofNat (c.toNat + 32) else c

/-- Python's `str.lower()` on a string of ASCII characters (the
case-insensitive comparison `keycap.name.lower() == name.lower()` at
line 670). -/
def lowerStr (s : String) : String := ⟨s.data.map lowerChar⟩

/-- One keycap processed for one requested name in the named-keycap
branch (lines 668–706): on a case-insensitive name match, set
`output_path`, record the match, compute the skip-unless-forced
existence flag, apply the flag writes, append the render command unless
skipped, and, with `--legends`, rename the keycap in place
(`name` suffixed `_legends`, `file_type` set to `"stl"` — `render` is
not changed here) and append the legend command unless the legend file
exists (this check ignores `--force`).  Returns the keycap's new state,
the appended commands, and whether this keycap matched. -/
def namedStep (args : Args) (fs : String → Bool) (nm : String)
    (k : Keycap) : Keycap × List Keycap × Bool :=
  if lowerStr k.name = lowerStr nm then
    let k1 := { k with output_path := args.out }
    let ex := !args.force &&
      fs (keycapPath args.out k1.name k1.file_type)
    let k2 := applyFlags args k1
    let cs := if ex then ([] : List Keycap) else [k2]
    if args.legends then
      let k3 := { k2 with
        name := k2.name ++ "_legends",
        file_type := "stl" }
      if fs (keycapPath args.out k3.name k3.file_type) then (k3, cs, true)
      else (k3, cs ++ [k3], true)
    else (k2, cs, true)
  else (k, [], false)

/-- The inner loop of the named-keycap branch: one requested name
checked against every keycap, threading the keycap states. -/
def namedPass (args : Args) (fs : String → Bool) (nm : String) :
    List Keycap → List Keycap × List Keycap × Bool
  | [] => ([], [], false)
  | k :: rest =>
    let s := namedStep args fs nm k
    let r := namedPass args fs nm rest
    (s.1 :: r.1, s.2.1 ++ r.2.1, s.2.2 || r.2.2)

/-- The outer loop of the named-keycap branch (lines 666–708): every
requested name in order, over the keycap states left by the previous
names; the single `matched` flag is the disjunction of all matches. -/
def namedRun (args : Args) (fs : String → Bool) :
    List String → List Keycap → List Keycap × List Keycap × Bool
  | [], ks => (ks, [], false)
  | nm :: rest, ks =>
    let p := namedPass args fs nm ks
    let r := namedRun args fs rest p.1
    (r.1, p.2.1 ++ r.2.1, p.2.2 || r.2.2)

/-- Model of `print_keycaps` (lines 614–621): the printed list of renderable
keycap names. -/
def print_keycaps (ks : List Keycap) : String :=
  String.intercalate ", " (ks.map Keycap.name)

/-- Observable outcome of the `__main__` block up to the point where
the collected commands are handed to the async runner. -/
structure MainOutcome where
  exitCode : Option Nat
  printedHelp : Bool
  printedKeycapList : Option String
  madeOutDir : Bool
  finalKeycaps : List Keycap
  commands : List Keycap
  notFoundMsg : Option String
deriving DecidableEq

/-- The `__main__` block (lines 652–755): with no command-line
arguments (`len(sys.argv) == 1`) print the help and the keycap list and
exit with status 1; with `--keycaps` print the keycap list and exit
with status 1; otherwise create the output directory when missing and
run the named-keycap branch (when positional names were given) or the
full-batch branch, leaving `COMMANDS` for the async runner. -/
def mainRun (argvLen : Nat) (args : Args) (fs : String → Bool)
    (ks : List Keycap) : MainOutcome :=
  if argvLen = 1 then
    { exitCode := some 1, printedHelp := true,
      printedKeycapList := some (print_keycaps ks), madeOutDir := false,
      finalKeycaps := ks, commands := [], notFoundMsg := none }
  else if args.keycaps then
    { exitCode := some 1, printedHelp := false,
      printedKeycapList := some (print_keycaps ks), madeOutDir := false,
      finalKeycaps := ks, commands := [], notFoundMsg := none }
  else
    let made := !fs args.out
    match args.names with
    | [] =>
      let r := fullBatch args fs ks
      { exitCode := none, printedHelp := false,
        printedKeycapList := none, madeOutDir := made,
        finalKeycaps := r.1, commands := r.2, notFoundMsg := none }
    | nm :: rest =>
      let r := namedRun args fs (nm :: rest) ks
      { exitCode := none, printedHelp := false,
        printedKeycapList := none, madeOutDir := made,
        finalKeycaps := r.1, commands := r.2.1,
        notFoundMsg :=
          if r.2.2 then none
          else some ("Cound not find a keycap named " ++
            (nm :: rest).getLast (List.cons_ne_nil nm rest)) }

/-! ## The async batch runner's completion behaviour (lines 94–112)

`run_all_commands` builds one `run_command_on_loop` future per command
and consumes them with `asyncio.as_completed`, which yields every
future exactly once, in completion order; each collected result is
handed to `process_result`, which prints it.  A completion order is a
permutation of the command indices. -/

/-- Model of `process_result` (lines 107–112): the line it prints for one
result. -/
def process_result (result : String) : String := result

/-- The commands executed by `run_all_commands` when the scheduler
completes the futures in the index order `order`. -/
def executedCommands (order : List Nat) (cmds : List String) :
    List String :=
  order.map (fun i => cmds.getD i "")

/-- The lines printed by `process_result` over a run of
`run_all_commands`, one per collected output, in completion order. -/
def printedOutputs (exec : String → Nat × String) (order : List Nat)
    (cmds : List String) : List String :=
  (executedCommands order cmds).map
    (fun c => process_result (run_command exec c))

/-! ## Concrete fixtures for evaluating the model -/

/-- A baseline `args`: every flag at its `argparse` default. -/
def argsDefault : Args where
  out := "."
  jobs := 8
  force := false
  skip_colorscad := false
  transparent := false
  legends := false
  keycaps := false
  names := []

/-- Args for `--legends --force`. -/
def argsLegendsForce : Args := { argsDefault with legends := true, force := true }

/-- Args for `--legends` without `--force`. -/
def argsLegendsNoForce : Args := { argsDefault with legends := true }

/-- Two positional names, neither naming a catalog entry. -/
def argsTwoNames : Args := { argsDefault with names := ["ZZZ", "qqq"] }

/-- Args for `--keycaps`. -/
def argsKeycapsFlag : Args := { argsDefault with keycaps := true }

/-- A filesystem on which no path exists. -/
def fsNone : String → Bool := fun _ => false

/-- A filesystem on which every path exists. -/
def fsAll : String → Bool := fun _ => true

/-- A concrete catalog entry shaped like the script's `l_esc`
record. -/
def kEsc : Keycap :=
  { blankKeycap with
    name := "l_esc", file_type := "3mf",
    render := ["keycap", "stem"], legends := [" ", "Esc", "", "Z"] }

/-- A concrete catalog entry with a single non-empty legend. -/
def kA : Keycap :=
  { blankKeycap with
    name := "l_A", file_type := "3mf",
    render := ["keycap", "stem"], legends := ["A"] }

end FtErgodox

/-! ## Theorems -/

namespace FtErgodox

/-- Claim **C3.** For every command string (every exit status / output
behaviour), `run_command` returns the command's combined stdout/stderr
output as a string and never raises: it is a total function into
`String`, and when the exit status is non-zero the `CalledProcessError`
raised by `check_output` is caught and the exception's captured output is
returned instead of propagating the error. -/
theorem run_command_total_output (exec : String → Nat × String)
    (cmd : String) :
    run_command exec cmd = (exec cmd).2 ∧
      ((exec cmd).1 ≠ 0 →
        check_output exec cmd = Except.error (exec cmd).2 ∧
        run_command exec cmd = (exec cmd).2) := by
  constructor
  · unfold run_command check_output
    by_cases h : (exec cmd).1 = 0 <;> simp [h]
  · intro h
    constructor
    · unfold check_output
      simp [h]
    · unfold run_command check_output
      simp [h]

/-- Witness for C3 at a concrete failing command: a behaviour with exit
status 1 and output `"boom"`. -/
theorem run_command_total_output_witness :
    run_command (fun _ => (1, "boom")) "false" = "boom" ∧
      check_output (fun _ => (1, "boom")) "false" = Except.error "boom" :=
  ⟨(run_command_total_output (fun _ => (1, "boom")) "false").1,
   ((run_command_total_output (fun _ => (1, "boom")) "false").2
     (by decide)).1⟩

/-- Claim **C2, counterexample.** The claim says running the command runner
raises a `NameError` because `SEM` has no binding at its point of use.
It is false on the script's actual invocation path: `SEM` is bound at
line 651 (inside the `__main__` block, which executes at module level
when the file runs as a script) before line 755 drives
`run_command_on_loop`, so the run completes with every global lookup
succeeding — no `NameError`. -/
theorem script_run_no_name_error :
    runNames scriptRun [] = Except.ok () := by rfl

/-- Claim **C2, amended.** `SEM` is not bound by the module body itself (the
lines 55–56 definition is commented out); its only binding is inside the
`__main__` block, which runs before the command runner when the file is
executed as a script, so the script run raises no `NameError`.  Only
running the command runner without the `__main__` block having executed
(e.g. after importing the module) raises `NameError` on `SEM`. -/
theorem sem_bound_only_in_main :
    runNames scriptRun [] = Except.ok () ∧
      runNames importThenRun [] = Except.error "SEM" ∧
      "SEM" ∉ bindsOf moduleTopLevel ∧
      "SEM" ∈ bindsOf mainBlock :=
  ⟨by rfl, by rfl, by decide, by decide⟩

/-- No command is counted as executing in the initial all-waiting
queue. -/
theorem countRunning_replicate_waiting (n : Nat) :
    countRunning (List.replicate n Phase.waiting) = 0 := by
  induction n with
  | zero => rfl
  | succ m ih =>
    simp only [List.replicate_succ, countRunning, List.filter_cons,
      isRunning] at ih ⊢
    simpa using ih

/-- Starting a waiting command raises the executing count by one. -/
theorem countRunning_set_running (l : List Phase) (i : Nat)
    (h : l.get? i = some Phase.waiting) :
    countRunning (l.set i Phase.running) = countRunning l + 1 := by
  induction l generalizing i with
  | nil => simp at h
  | cons a t ih =>
    cases i with
    | zero =>
      have ha : a = Phase.waiting := by simpa using h
      subst ha
      simp [countRunning, List.filter_cons, isRunning]
    | succ j =>
      have ih' := ih j h
      unfold countRunning at ih' ⊢
      cases a <;> simp [List.filter_cons, isRunning] <;> omega

/-- Finishing a running command lowers the executing count by one. -/
theorem countRunning_set_done (l : List Phase) (i : Nat)
    (h : l.get? i = some Phase.running) :
    countRunning (l.set i Phase.done) + 1 = countRunning l := by
  induction l generalizing i with
  | nil => simp at h
  | cons a t ih =>
    cases i with
    | zero =>
      have ha : a = Phase.running := by simpa using h
      subst ha
      simp [countRunning, List.filter_cons, isRunning]
    | succ j =>
      have ih' := ih j h
      unfold countRunning at ih' ⊢
      cases a <;> simp [List.filter_cons, isRunning] <;> omega

/-- Semaphore invariant of the batch runner: the semaphore's counter
plus the number of commands currently executing always equals the
initial counter `jobs`. -/
theorem sem_running_invariant (jobs n : Nat) (s : BatchState)
    (h : Reachable (initState jobs n) s) :
    s.sem + countRunning s.phases = jobs := by
  induction h with
  | refl => simp [initState, countRunning_replicate_waiting]
  | step _ hstep ih =>
    cases hstep with
    | acquire i hw hs =>
      dsimp only
      rw [countRunning_set_running _ i hw]
      omega
    | release i hr =>
      dsimp only
      have hc := countRunning_set_done _ i hr
      omega

/-- Claim **C1.** In every run of the batch runner, the number of external
render commands executing concurrently never exceeds the `--jobs`
argument: `run_command_on_loop` acquires the semaphore `SEM`
(initialized to `args.jobs`) before running a command and releases it
only after the command's output is collected, so in every state
reachable from the start state at most `jobs` commands are in flight. -/
theorem concurrent_renders_bounded (jobs n : Nat) (s : BatchState)
    (h : Reachable (initState jobs n) s) :
    countRunning s.phases ≤ jobs := by
  have := sem_running_invariant jobs n s h
  omega

/-- Witness for C1 at the default `--jobs` value 8 with two queued
commands, in the state reached after one command acquires `SEM` and
starts executing. -/
theorem concurrent_renders_bounded_witness :
    countRunning [Phase.running, Phase.waiting] ≤ defaultJobs :=
  concurrent_renders_bounded defaultJobs 2
    ⟨7, [Phase.running, Phase.waiting]⟩
    (Reachable.step Reachable.refl
      (BatchStep.acquire (initState defaultJobs 2) 0 rfl (by decide)))

/-- Claim **C7.** Each keycap configuration is built by chaining attribute
overrides across the class hierarchy: a subclass constructor first
produces the parent's configuration and then changes only its explicitly
listed attributes.  For every override function `p` (the external
`postinit`) and starting state `s`: `ergodox_ft_gem` equals
`ergodox_ft_base` except `key_profile = "gem"` and
`key_rotation = [108.6,0,0]`, and `ergodox_ft_wpm` equals
`ergodox_ft_base` except `font_sizes[1] = 2`. -/
theorem subclass_overrides (p : Keycap → Keycap) (hd : Bool)
    (s : Keycap) :
    ergodox_ft_gem_init p hd s =
      { ergodox_ft_base_init p hd s with
        key_profile := "gem", key_rotation := [108.6, 0, 0] } ∧
    (ergodox_ft_gem_init p hd s).key_profile = "gem" ∧
    (ergodox_ft_gem_init p hd s).key_rotation = [108.6, 0, 0] ∧
    ergodox_ft_wpm_init p hd s =
      { ergodox_ft_base_init p hd s with
        font_sizes := (ergodox_ft_base_init p hd s).font_sizes.set 1 2 } ∧
    (1 < (ergodox_ft_base_init p hd s).font_sizes.length →
      (ergodox_ft_wpm_init p hd s).font_sizes[1]? = some 2) :=
  ⟨rfl, rfl, rfl, rfl, fun h => by
    show ((ergodox_ft_base_init p hd s).font_sizes.set 1 2)[1]? = some 2
    exact List.getElem?_set_eq_of_lt 2 h⟩

/-- Witness for C7 with the identity override and a concrete starting
record: GEM profile and rotation are set, and the WPM front legend size
is 2. -/
theorem subclass_overrides_witness :
    (ergodox_ft_gem_init id false blankKeycap).key_profile = "gem" ∧
    (ergodox_ft_gem_init id false blankKeycap).key_rotation =
      [108.6, 0, 0] ∧
    (ergodox_ft_wpm_init id false blankKeycap).font_sizes[1]? = some 2 :=
  ⟨(subclass_overrides id false blankKeycap).2.1,
   (subclass_overrides id false blankKeycap).2.2.1,
   (subclass_overrides id false blankKeycap).2.2.2.2 (by decide)⟩

/-- With `--force`, the render loop never skips: the keycap is
flag-written and its command appended. -/
theorem renderStep_force (args : Args) (fs : String → Bool) (k : Keycap)
    (hf : args.force = true) :
    renderStep args fs k =
      (mutateRender args k, some (mutateRender args k)) := by
  simp [renderStep, mutateRender, hf]

/-- Without `--force`, an existing output file makes the render loop
skip the keycap: only `output_path` is written and nothing is
appended. -/
theorem renderStep_skip (args : Args) (fs : String → Bool) (k : Keycap)
    (hf : args.force = false)
    (hx : fs (keycapPath args.out k.name k.file_type) = true) :
    renderStep args fs k = ({ k with output_path := args.out }, none) := by
  simp [renderStep, hf, hx]

/-- Without `--force`, a missing output file lets the render loop
process the keycap and append its command. -/
theorem renderStep_go (args : Args) (fs : String → Bool) (k : Keycap)
    (hf : args.force = false)
    (hx : fs (keycapPath args.out k.name k.file_type) = false) :
    renderStep args fs k =
      (mutateRender args k, some (mutateRender args k)) := by
  simp [renderStep, mutateRender, hf, hx]

/-- With `--force`, the full-batch render loop appends one command per
catalog keycap. -/
theorem renderCmds_force (args : Args) (fs : String → Bool)
    (ks : List Keycap) (hf : args.force = true) :
    renderCmds args fs ks = ks.map (mutateRender args) := by
  induction ks with
  | nil => rfl
  | cons k t ih =>
    simp only [renderCmds, List.map_cons, List.filterMap_cons,
      renderStep_force args fs k hf] at ih ⊢
    simp [ih]

/-- Without `--force`, the full-batch render loop appends exactly the
commands of the keycaps whose output file does not exist. -/
theorem renderCmds_noforce (args : Args) (fs : String → Bool)
    (ks : List Keycap) (hf : args.force = false) :
    renderCmds args fs ks =
      (ks.filter
        (fun j => !fs (keycapPath args.out j.name j.file_type))).map
        (mutateRender args) := by
  induction ks with
  | nil => rfl
  | cons k t ih =>
    simp only [renderCmds] at ih
    cases hx : fs (keycapPath args.out k.name k.file_type) with
    | true =>
      simp [renderCmds, List.filterMap_cons, List.filter_cons,
        renderStep_skip args fs k hf hx, hx, ih]
    | false =>
      simp [renderCmds, List.filterMap_cons, List.filter_cons,
        renderStep_go args fs k hf hx, hx, ih]

/-- On a case-insensitive match without `--legends` and without
`--force`, an existing output file makes the named branch append
nothing for that keycap (it is still flag-written and marked
matched). -/
theorem namedStep_skip (args : Args) (fs : String → Bool) (nm : String)
    (k : Keycap) (hm : lowerStr k.name = lowerStr nm)
    (hleg : args.legends = false) (hf : args.force = false)
    (hx : fs (keycapPath args.out k.name k.file_type) = true) :
    namedStep args fs nm k = (mutateRender args k, [], true) := by
  simp [namedStep, mutateRender, hm, hleg, hf, hx]

/-- On a case-insensitive match without `--legends`, `--force` makes
the named branch always append the keycap's command. -/
theorem namedStep_force (args : Args) (fs : String → Bool) (nm : String)
    (k : Keycap) (hm : lowerStr k.name = lowerStr nm)
    (hleg : args.legends = false) (hf : args.force = true) :
    namedStep args fs nm k =
      (mutateRender args k, [mutateRender args k], true) := by
  simp [namedStep, mutateRender, hm, hleg, hf]

/-- Claim **C4.** In full-batch mode without `--force`, every keycap whose
output file `{out}/{name}.{file_type}` already exists gets no render
command appended to `COMMANDS`; with `--force` a render command is
appended for every keycap regardless of file existence; and the same
skip-unless-forced rule governs the per-keycap render command of the
named-keycap branch. -/
theorem skip_unless_forced (args : Args) (fs : String → Bool)
    (ks : List Keycap) (nm : String) (k : Keycap)
    (hm : lowerStr k.name = lowerStr nm) (hleg : args.legends = false) :
    (args.force = false →
      renderCmds args fs ks =
        (ks.filter
          (fun j => !fs (keycapPath args.out j.name j.file_type))).map
          (mutateRender args)) ∧
    (args.force = true →
      renderCmds args fs ks = ks.map (mutateRender args)) ∧
    (fullBatch args fs ks).2 = renderCmds args fs ks ∧
    (args.force = false →
      fs (keycapPath args.out k.name k.file_type) = true →
      (namedStep args fs nm k).2.1 = []) ∧
    (args.force = true →
      (namedStep args fs nm k).2.1 = [mutateRender args k]) :=
  ⟨fun hf => renderCmds_noforce args fs ks hf,
   fun hf => renderCmds_force args fs ks hf,
   by simp [fullBatch, hleg],
   fun hf hx => by rw [namedStep_skip args fs nm k hm hleg hf hx],
   fun hf => by rw [namedStep_force args fs nm k hm hleg hf]⟩

/-- Witness for C4: with every output file present and no `--force`,
the batch loop and the named branch append nothing for `l_esc`; with
`--force` the batch loop appends its command. -/
theorem skip_unless_forced_witness :
    renderCmds argsDefault fsAll [kEsc] = [] ∧
    renderCmds { argsDefault with force := true } fsAll [kEsc] =
      [mutateRender { argsDefault with force := true } kEsc] ∧
    (namedStep argsDefault fsAll "L_ESC" kEsc).2.1 = [] := by
  have h := skip_unless_forced argsDefault fsAll [kEsc] "L_ESC" kEsc
    (by decide) rfl
  have h2 := skip_unless_forced { argsDefault with force := true } fsAll
    [kEsc] "L_ESC" kEsc (by decide) rfl
  refine ⟨?_, h2.2.1 rfl, h.2.2.2.1 rfl rfl⟩
  rw [h.1 rfl]
  rfl

/-- Claim **C5, counterexample.** Generating the render commands does change
catalog records: in full-batch mode with `--legends --force` on the
`l_esc`-shaped record, after command generation the record's `name` has
become `l_esc_legends`, its `file_type` `"stl"` and its `render`
`["legends"]`, none of which equal the values it was built with. -/
theorem catalog_mutated :
    (fullBatch argsLegendsForce fsNone [kEsc]).1.map Keycap.name =
      ["l_esc_legends"] ∧
    kEsc.name = "l_esc" ∧
    (fullBatch argsLegendsForce fsNone [kEsc]).1.map Keycap.file_type =
      ["stl"] ∧
    kEsc.file_type = "3mf" ∧
    (fullBatch argsLegendsForce fsNone [kEsc]).1.map Keycap.render =
      [["legends"]] ∧
    kEsc.render = ["keycap", "stem"] := by
  decide

/-- Claim **C5, amended.** The catalog is built once at module load, but
command generation mutates its records in place.  Without `--legends`,
the full-batch run rewrites only `output_path` (and `use_colorscad` /
`stem_color` under their flags): every keycap's `name`, `file_type`,
`render`, `legends` and the remaining configuration fields are
unchanged.  (With `--legends`, records are further renamed, as the
counterexample shows.) -/
theorem catalog_mutation_exact (args : Args) (fs : String → Bool)
    (ks : List Keycap) (hleg : args.legends = false) :
    (fullBatch args fs ks).1 =
      ks.map (fun k => (renderStep args fs k).1) ∧
    ∀ k : Keycap,
      (renderStep args fs k).1.name = k.name ∧
      (renderStep args fs k).1.file_type = k.file_type ∧
      (renderStep args fs k).1.render = k.render ∧
      (renderStep args fs k).1.legends = k.legends ∧
      (renderStep args fs k).1.key_profile = k.key_profile ∧
      (renderStep args fs k).1.fonts = k.fonts ∧
      (renderStep args fs k).1.font_sizes = k.font_sizes ∧
      (renderStep args fs k).1.key_rotation = k.key_rotation := by
  constructor
  · simp [fullBatch, renderPhase, hleg, List.map_map, Function.comp]
  · intro k
    refine ⟨?_, ?_, ?_, ?_, ?_, ?_, ?_, ?_⟩ <;>
      · unfold renderStep applyFlags
        dsimp only
        repeat' split
        all_goals rfl

/-- Witness for C5's amended statement: the default-flag batch run on
the `l_esc`-shaped record leaves its name `l_esc`. -/
theorem catalog_mutation_exact_witness :
    (fullBatch argsDefault fsNone [kEsc]).1 =
      [kEsc].map (fun k => (renderStep argsDefault fsNone k).1) ∧
    (renderStep argsDefault fsNone kEsc).1.name = "l_esc" := by
  have h := catalog_mutation_exact argsDefault fsNone [kEsc] rfl
  exact ⟨h.1, ((h.2 kEsc).1).trans (by decide)⟩

/-- Claim **C6, counterexample.** The claim that in full-batch `--legends`
mode every keycap with legends ≠ `[""]` gets a legend command omits the
skip-on-existing-file rule: without `--force`, when the legend output
file already exists, a keycap with a non-empty legend produces no
command at all. -/
theorem legend_cmd_skipped :
    kA.legends ≠ [""] ∧
    argsLegendsNoForce.legends = true ∧
    argsLegendsNoForce.force = false ∧
    (fullBatch argsLegendsNoForce fsAll [kA]).2 = [] := by
  decide

/-- Claim **C6, amended.** When `--legends` is given in full-batch mode, a
second, separate legend command is generated for every keycap whose
`legends` list is not `[""]` — with the keycap's name suffixed
`_legends`, `render` set to `["legends"]` and `file_type` set to
`"stl"` — unless the legend output file already exists and `--force`
was not given; keycaps whose `legends` equal `[""]` produce no legend
command. -/
theorem legend_commands (args : Args) (fs : String → Bool)
    (ks : List Keycap) (hleg : args.legends = true) :
    (fullBatch args fs ks).2 =
      renderCmds args fs ks ++
        legendCmds args fs (renderPhase args fs ks) ∧
    (∀ k : Keycap, k.legends = [""] → legendStep args fs k = (k, none)) ∧
    (∀ k : Keycap, k.legends ≠ [""] → args.force = true →
      (legendStep args fs k).2 = some (mutateLegend args k) ∧
      (mutateLegend args k).name = k.name ++ "_legends" ∧
      (mutateLegend args k).render = ["legends"] ∧
      (mutateLegend args k).file_type = "stl") ∧
    (∀ k : Keycap, k.legends ≠ [""] → args.force = false →
      ((legendStep args fs k).2 = none ↔
        fs (keycapPath args.out (k.name ++ "_legends") "stl") = true)) := by
  refine ⟨by simp [fullBatch, hleg], fun k hk => by simp [legendStep, hk],
    fun k hk hf => ⟨?_, ?_, ?_, ?_⟩, fun k hk hf => ?_⟩
  · simp [legendStep, mutateLegend, hk, hf]
  · unfold mutateLegend applyFlags
    dsimp only
    repeat' split
    all_goals rfl
  · unfold mutateLegend applyFlags
    dsimp only
    repeat' split
    all_goals rfl
  · unfold mutateLegend applyFlags
    dsimp only
    repeat' split
    all_goals rfl
  · cases hx : fs (keycapPath args.out (k.name ++ "_legends") "stl") with
    | true => simp [legendStep, hk, hf, hx]
    | false => simp [legendStep, hk, hf, hx]

/-- Witness for C6's amended statement: with `--legends --force` on a
missing-file system, the `l_A` record yields a legend command named
`l_A_legends` with render `["legends"]` and file type `stl`. -/
theorem legend_commands_witness :
    (legendStep argsLegendsForce fsNone kA).2 =
      some (mutateLegend argsLegendsForce kA) ∧
    (mutateLegend argsLegendsForce kA).name = "l_A_legends" ∧
    (mutateLegend argsLegendsForce kA).render = ["legends"] ∧
    (mutateLegend argsLegendsForce kA).file_type = "stl" := by
  have h := (legend_commands argsLegendsForce fsNone [] rfl).2.2.1 kA
    (by decide) rfl
  refine ⟨h.1, ?_, h.2.2.1, h.2.2.2⟩
  rw [h.2.1]
  decide

/-- A keycap whose lowercased name differs from the requested name is
left untouched by the named branch: no mutation, no command, no
match. -/
theorem namedStep_no_match (args : Args) (fs : String → Bool)
    (nm : String) (k : Keycap)
    (h : ¬ lowerStr k.name = lowerStr nm) :
    namedStep args fs nm k = (k, [], false) := by
  simp [namedStep, h]

/-- A keycap whose lowercased name equals the requested name is marked
matched by the named branch, in every flag combination. -/
theorem namedStep_matched (args : Args) (fs : String → Bool)
    (nm : String) (k : Keycap) (h : lowerStr k.name = lowerStr nm) :
    (namedStep args fs nm k).2.2 = true := by
  unfold namedStep
  rw [if_pos h]
  dsimp only
  split
  · split <;> rfl
  · rfl

/-- A requested name that matches no keycap leaves the whole catalog
untouched and contributes nothing. -/
theorem namedPass_no_match (args : Args) (fs : String → Bool)
    (nm : String) (ks : List Keycap)
    (h : ∀ k ∈ ks, ¬ lowerStr k.name = lowerStr nm) :
    namedPass args fs nm ks = (ks, [], false) := by
  induction ks with
  | nil => rfl
  | cons k t ih =>
    have hk := h k (by simp)
    have ht := ih (fun j hj => h j (by simp [hj]))
    simp [namedPass, namedStep_no_match args fs nm k hk, ht]

/-- Conversely, if a pass over the catalog reports no match, then no
keycap's lowercased name equals the requested name, and the catalog was
left untouched. -/
theorem namedPass_unmatched (args : Args) (fs : String → Bool)
    (nm : String) (ks : List Keycap)
    (h : (namedPass args fs nm ks).2.2 = false) :
    namedPass args fs nm ks = (ks, [], false) ∧
      ∀ k ∈ ks, ¬ lowerStr k.name = lowerStr nm := by
  induction ks with
  | nil => exact ⟨rfl, by simp⟩
  | cons k t ih =>
    have hsplit : (namedStep args fs nm k).2.2 = false ∧
        (namedPass args fs nm t).2.2 = false := by
      have h' := h
      simp [namedPass] at h'
      exact h'
    have hk : ¬ lowerStr k.name = lowerStr nm := by
      intro hc
      rw [namedStep_matched args fs nm k hc] at hsplit
      simp at hsplit
    obtain ⟨ht, hall⟩ := ih hsplit.2
    refine ⟨by simp [namedPass, namedStep_no_match args fs nm k hk, ht],
      fun j hj => ?_⟩
    rcases List.mem_cons.mp hj with h' | h'
    · exact h' ▸ hk
    · exact hall j h'

/-- When no requested name matches any catalog keycap, the named branch
leaves the catalog untouched, appends nothing and reports no match. -/
theorem namedRun_no_match (args : Args) (fs : String → Bool)
    (names : List String) (ks : List Keycap)
    (h : ∀ n ∈ names, ∀ k ∈ ks, ¬ lowerStr k.name = lowerStr n) :
    namedRun args fs names ks = (ks, [], false) := by
  induction names with
  | nil => rfl
  | cons nm rest ih =>
    have hp := namedPass_no_match args fs nm ks
      (fun k hk => h nm (by simp) k hk)
    have hr := ih (fun n hn k hk => h n (by simp [hn]) k hk)
    simp [namedRun, hp, hr]

/-- Conversely, if the named branch reports no match, every requested
name failed against every catalog keycap (and the catalog was left
untouched). -/
theorem namedRun_unmatched (args : Args) (fs : String → Bool)
    (names : List String) (ks : List Keycap)
    (h : (namedRun args fs names ks).2.2 = false) :
    namedRun args fs names ks = (ks, [], false) ∧
      ∀ n ∈ names, ∀ k ∈ ks, ¬ lowerStr k.name = lowerStr n := by
  induction names generalizing ks with
  | nil => exact ⟨rfl, by simp⟩
  | cons nm rest ih =>
    have hsplit : (namedPass args fs nm ks).2.2 = false ∧
        (namedRun args fs rest (namedPass args fs nm ks).1).2.2 = false := by
      have h' := h
      simp [namedRun] at h'
      exact h'
    obtain ⟨hpass, hks⟩ := namedPass_unmatched args fs nm ks hsplit.1
    have h2 : (namedRun args fs rest ks).2.2 = false := by
      have := hsplit.2
      rw [hpass] at this
      exact this
    obtain ⟨hrun, hrest⟩ := ih ks h2
    refine ⟨by simp [namedRun, hpass, hrun], fun n hn k hk => ?_⟩
    rcases List.mem_cons.mp hn with h' | h'
    · exact h' ▸ hks k hk
    · exact hrest n h' k hk

/-- The named branch's `matched` flag is `false` exactly when no
requested name case-insensitively equals any catalog keycap's name. -/
theorem namedRun_matched_iff (args : Args) (fs : String → Bool)
    (names : List String) (ks : List Keycap) :
    (namedRun args fs names ks).2.2 = false ↔
      ∀ n ∈ names, ∀ k ∈ ks, ¬ lowerStr k.name = lowerStr n :=
  ⟨fun h => (namedRun_unmatched args fs names ks h).2,
   fun h => by rw [namedRun_no_match args fs names ks h]⟩

/-- Claim **C9.** In the named-keycap branch, positional names are matched
case-insensitively against catalog entry names, and the single
`matched` flag is shared across all requested names: the
`Cound not find a keycap named ...` message is printed exactly when no
requested name matched any keycap, and when printed it names only the
last requested name (the leaked loop variable), even if several earlier
names also failed to match. -/
theorem named_not_found_message (argvLen : Nat) (args : Args)
    (fs : String → Bool) (ks : List Keycap) (nm : String)
    (rest : List String) (hargv : ¬ argvLen = 1)
    (hkc : args.keycaps = false) (hnames : args.names = nm :: rest) :
    ((mainRun argvLen args fs ks).notFoundMsg =
        some ("Cound not find a keycap named " ++
          (nm :: rest).getLast (List.cons_ne_nil nm rest)) ↔
      ∀ n ∈ nm :: rest, ∀ k ∈ ks, ¬ lowerStr k.name = lowerStr n) ∧
    ((mainRun argvLen args fs ks).notFoundMsg = none ↔
      ∃ n ∈ nm :: rest, ∃ k ∈ ks, lowerStr k.name = lowerStr n) := by
  have hmsg : (mainRun argvLen args fs ks).notFoundMsg =
      if (namedRun args fs (nm :: rest) ks).2.2 then none
      else some ("Cound not find a keycap named " ++
        (nm :: rest).getLast (List.cons_ne_nil nm rest)) := by
    simp [mainRun, hargv, hkc, hnames]
  cases hb : (namedRun args fs (nm :: rest) ks).2.2 with
  | false =>
    rw [hmsg, hb]
    have hall := (namedRun_matched_iff args fs (nm :: rest) ks).mp hb
    exact ⟨⟨fun _ => hall, fun _ => by simp⟩,
      ⟨fun hc => by simp at hc,
       fun ⟨n, hn, k, hk, hm'⟩ => absurd hm' (hall n hn k hk)⟩⟩
  | true =>
    rw [hmsg, hb]
    have hnall : ¬ ∀ n ∈ nm :: rest, ∀ k ∈ ks,
        ¬ lowerStr k.name = lowerStr n := by
      intro hforall
      have hfalse := (namedRun_matched_iff args fs (nm :: rest) ks).mpr
        hforall
      rw [hb] at hfalse
      simp at hfalse
    constructor
    · exact ⟨fun hc => by simp at hc, fun hforall => absurd hforall hnall⟩
    · constructor
      · intro _
        push_neg at hnall
        exact hnall
      · intro _
        simp

/-- Witness for C9: requesting `ZZZ` then `qqq` against a catalog
holding only `l_esc` prints the not-found message naming only `qqq`. -/
theorem named_not_found_message_witness :
    (mainRun 2 argsTwoNames fsNone [kEsc]).notFoundMsg =
      some "Cound not find a keycap named qqq" := by
  have h := (named_not_found_message 2 argsTwoNames fsNone [kEsc] "ZZZ"
    ["qqq"] (by decide) rfl rfl).1.mpr (by decide)
  exact h.trans (by decide)

/-- Claim **C10.** Invoked with no command-line arguments
(`len(sys.argv) == 1`), the script prints the usage help and the list
of all renderable keycap names and exits with status 1, appending no
render commands; `--keycaps` likewise prints the keycap names and exits
with status 1 before any rendering or output-directory creation. -/
theorem no_args_and_keycaps_flag (argvLen : Nat) (args : Args)
    (fs : String → Bool) (ks : List Keycap) :
    (argvLen = 1 →
      mainRun argvLen args fs ks =
        { exitCode := some 1, printedHelp := true,
          printedKeycapList := some (print_keycaps ks),
          madeOutDir := false, finalKeycaps := ks, commands := [],
          notFoundMsg := none }) ∧
    (¬ argvLen = 1 → args.keycaps = true →
      mainRun argvLen args fs ks =
        { exitCode := some 1, printedHelp := false,
          printedKeycapList := some (print_keycaps ks),
          madeOutDir := false, finalKeycaps := ks, commands := [],
          notFoundMsg := none }) :=
  ⟨fun h => by simp [mainRun, h],
   fun h hk => by simp [mainRun, h, hk]⟩

/-- Witness for C10: a bare invocation and a `--keycaps` invocation on
a one-entry catalog both exit with status 1, print the name list, make
no directory and append no commands. -/
theorem no_args_and_keycaps_flag_witness :
    mainRun 1 argsDefault fsNone [kEsc] =
      { exitCode := some 1, printedHelp := true,
        printedKeycapList := some "l_esc", madeOutDir := false,
        finalKeycaps := [kEsc], commands := [], notFoundMsg := none } ∧
    mainRun 2 argsKeycapsFlag fsNone [kEsc] =
      { exitCode := some 1, printedHelp := false,
        printedKeycapList := some "l_esc", madeOutDir := false,
        finalKeycaps := [kEsc], commands := [], notFoundMsg := none } := by
  constructor
  · exact ((no_args_and_keycaps_flag 1 argsDefault fsNone [kEsc]).1
      rfl).trans (by decide)
  · exact ((no_args_and_keycaps_flag 2 argsKeycapsFlag fsNone
      [kEsc]).2 (by decide) rfl).trans (by decide)

/-- Reading every index of a list in order reproduces the list. -/
theorem getD_range_map (l : List String) :
    (List.range l.length).map (fun i => l.getD i "") = l := by
  induction l with
  | nil => rfl
  | cons a t ih =>
    rw [List.length_cons, List.range_succ_eq_map, List.map_cons,
      List.map_map]
    congr 1

/-- Claim **C8.** `run_all_commands` executes every command in its command
list exactly once — under every completion order of its futures, the
multiset of executed commands equals the command list — and for every
command the collected output is passed to `process_result`, which
prints it. -/
theorem run_all_commands_each_once (exec : String → Nat × String)
    (order : List Nat) (cmds : List String)
    (h : order.Perm (List.range cmds.length)) :
    (executedCommands order cmds).Perm cmds ∧
    (∀ c, (executedCommands order cmds).count c = cmds.count c) ∧
    printedOutputs exec order cmds =
      (executedCommands order cmds).map (run_command exec) := by
  have hp : (executedCommands order cmds).Perm
      ((List.range cmds.length).map (fun i => cmds.getD i "")) :=
    h.map (fun i => cmds.getD i "")
  rw [getD_range_map] at hp
  exact ⟨hp, fun c => hp.count_eq c, rfl⟩

/-- Witness for C8 at a concrete completion order: two commands
finishing in reverse order are each executed once and both outputs are
printed. -/
theorem run_all_commands_each_once_witness :
    (executedCommands [1, 0] ["echo a", "echo b"]).Perm
      ["echo a", "echo b"] ∧
    printedOutputs (fun c => (0, c)) [1, 0] ["echo a", "echo b"] =
      ["echo b", "echo a"] := by
  have h := run_all_commands_each_once (fun c => (0, c)) [1, 0]
    ["echo a", "echo b"] (by decide)
  exact ⟨h.1, by decide⟩

end FtErgodox
